import Mathlib

/-!
Verification of the taskroot rollup/reporting core against its
natural-language specification.

Shallow embedding conventions:
* Dates are integers counting days, with day 0 a Monday, so that
  `weekday d = d.emod 7` mirrors Python's `date.weekday()`
  (0 = Monday, ..., 6 = Sunday); `timedelta` arithmetic is integer
  addition/subtraction.
* Dates are plain `Int` day numbers.
* `Decimal` hour quantities are modelled as exact rationals (`Rat`);
  the repository uses `decimal.Decimal` for all hour arithmetic.
* Django `aggregate(Sum(...))["total"] or Decimal("0")` over a child
  row set is modelled as `List.sum` over the corresponding list,
  which is `0` on the empty list exactly as the `or Decimal("0")`
  fallback produces.
-/

namespace TaskRoot

/-- Python `d.weekday()`: 0 = Monday, ..., 6 = Sunday. -/
def weekday (d : Int) : Int := d % 7

/-- Source `get_week_ending_date` from `core/api/v1/report_views.py`:
`days_until_sunday = (6 - d.weekday()) % 7; return d + timedelta(days=days_until_sunday)`. -/
def get_week_ending_date (d : Int) : Int :=
  d + (6 - weekday d) % 7

/-- The `while current <= end_date` loop body of `generate_weekly_buckets`:
append `current` and advance by 7 days while `current <= end_date`. -/
def weekly_bucket_loop (end_date : Int) (current : Int) : List Int :=
  if h : current ≤ end_date then current :: weekly_bucket_loop end_date (current + 7)
  else []
termination_by (end_date + 1 - current).toNat
decreasing_by
  simp_wf
  omega

/-- Source `generate_weekly_buckets` from `core/api/v1/report_views.py`: run the
loop from `get_week_ending_date start_date`; if no bucket was produced,
ensure at least one bucket `[get_week_ending_date start_date]`. -/
def generate_weekly_buckets (start_date end_date : Int) : List Int :=
  let buckets := weekly_bucket_loop end_date (get_week_ending_date start_date)
  if buckets.isEmpty then [get_week_ending_date start_date] else buckets

theorem weekly_bucket_loop_nil (e c : Int) (h : e < c) : weekly_bucket_loop e c = [] := by
  rw [weekly_bucket_loop]
  simp [Int.not_le.mpr h]

theorem weekly_bucket_loop_cons (e c : Int) (h : c ≤ e) :
    weekly_bucket_loop e c = c :: weekly_bucket_loop e (c + 7) := by
  rw [weekly_bucket_loop]
  simp [h]

/-- The loop from `c` produces exactly the dates `c + 7k` (k ≥ 0) that are `≤ e`. -/
theorem mem_weekly_bucket_loop (e c d : Int) :
    d ∈ weekly_bucket_loop e c ↔ ∃ k : Nat, d = c + 7 * k ∧ d ≤ e := by
  induction c using weekly_bucket_loop.induct e with
  | case1 c h ih =>
    rw [weekly_bucket_loop]
    simp only [h, dite_true, List.mem_cons, ih]
    constructor
    · rintro (rfl | ⟨k, rfl, hk⟩)
      · exact ⟨0, by ring, h⟩
      · exact ⟨k + 1, by push_cast; ring, hk⟩
    · rintro ⟨k, rfl, hk⟩
      cases k with
      | zero => left; simp
      | succ n => right; exact ⟨n, by push_cast; ring, hk⟩
  | case2 c h =>
    rw [weekly_bucket_loop]
    simp only [h, dite_false, List.not_mem_nil, false_iff]
    rintro ⟨k, rfl, hk⟩
    have : (0:Int) ≤ 7 * (k:Int) := by positivity
    omega

theorem chain_weekly_bucket_loop (e c : Int) :
    List.Chain' (fun a b => b = a + 7) (weekly_bucket_loop e c) := by
  induction c using weekly_bucket_loop.induct e with
  | case1 c h ih =>
    rw [weekly_bucket_loop_cons e c h]
    refine List.Chain'.cons' ih ?_
    intro y hy
    rcases le_or_lt (c + 7) e with h7 | h7
    · rw [weekly_bucket_loop_cons e _ h7] at hy
      simpa using hy.symm
    · rw [weekly_bucket_loop_nil e _ h7] at hy
      simp at hy
  | case2 c h =>
    rw [weekly_bucket_loop_nil e c (by omega)]
    exact List.chain'_nil

theorem option_getLast_mem (l : List Int) (a : Int) (h : l.getLast? = some a) : a ∈ l := by
  induction l with
  | nil => simp at h
  | cons x xs ih =>
    cases xs with
    | nil =>
      simp [List.getLast?] at h
      simp [h]
    | cons y ys =>
      rw [List.getLast?_cons_cons] at h
      exact List.mem_cons_of_mem x (ih h)

/-- every element of the loop list is bounded by the last one -/
theorem weekly_bucket_loop_le_getLast (e c : Int) :
    ∀ b l : Int, b ∈ weekly_bucket_loop e c →
      (weekly_bucket_loop e c).getLast? = some l → b ≤ l := by
  induction c using weekly_bucket_loop.induct e with
  | case1 c h ih =>
    intro b l hb hl
    rw [weekly_bucket_loop_cons e c h] at hb hl
    rcases eq_or_ne (weekly_bucket_loop e (c + 7)) [] with hrest | hrest
    · rw [hrest] at hb hl
      simp [List.getLast?] at hb hl
      omega
    · have h7 : c + 7 ≤ e := by
        by_contra hcon
        exact hrest (weekly_bucket_loop_nil e (c + 7) (by omega))
      have hl2 : (weekly_bucket_loop e (c + 7)).getLast? = some l := by
        rw [weekly_bucket_loop_cons e (c + 7) h7] at hl ⊢
        rwa [List.getLast?_cons_cons] at hl
      rcases List.mem_cons.mp hb with rfl | hb2
      · have hlm := option_getLast_mem _ _ hl2
        rw [mem_weekly_bucket_loop] at hlm
        obtain ⟨k, hk, -⟩ := hlm
        have : (0:Int) ≤ 7 * (k:Int) := by positivity
        omega
      · exact ih b l hb2 hl2
  | case2 c h =>
    intro b l hb hl
    rw [weekly_bucket_loop_nil e c (by omega)] at hb
    simp at hb

theorem generate_weekly_buckets_eq_loop (s e : Int) (h : get_week_ending_date s ≤ e) :
    generate_weekly_buckets s e = weekly_bucket_loop e (get_week_ending_date s) := by
  unfold generate_weekly_buckets
  rw [weekly_bucket_loop_cons e _ h]
  simp

theorem generate_weekly_buckets_eq_single (s e : Int) (h : e < get_week_ending_date s) :
    generate_weekly_buckets s e = [get_week_ending_date s] := by
  unfold generate_weekly_buckets
  rw [weekly_bucket_loop_nil e _ h]
  simp

theorem generate_weekly_buckets_le_getLast (s e : Int) :
    ∀ b l : Int, b ∈ generate_weekly_buckets s e →
      (generate_weekly_buckets s e).getLast? = some l → b ≤ l := by
  intro b l hb hl
  rcases le_or_lt (get_week_ending_date s) e with h | h
  · rw [generate_weekly_buckets_eq_loop s e h] at hb hl
    exact weekly_bucket_loop_le_getLast e _ b l hb hl
  · rw [generate_weekly_buckets_eq_single s e h] at hb hl
    simp [List.getLast?] at hb hl
    omega

/-- C9: for every date `d`, `get_week_ending_date d` is a Sunday,
lies in `[d, d + 6]`, and the function is idempotent. -/
theorem week_ending_sunday_bounds_idem (d : Int) :
    weekday (get_week_ending_date d) = 6
    ∧ d ≤ get_week_ending_date d
    ∧ get_week_ending_date d ≤ d + 6
    ∧ get_week_ending_date (get_week_ending_date d) = get_week_ending_date d := by
  unfold get_week_ending_date weekday
  omega

/-- C3: for `start ≤ end`, `generate_weekly_buckets` returns a non-empty list
whose first element is `get_week_ending_date start`, whose successive
elements advance by exactly 7 days, containing every date of the form
`get_week_ending_date start + 7k` that is `≤ end`; and when
`get_week_ending_date start > end` it returns exactly
`[get_week_ending_date start]`. -/
theorem generate_weekly_buckets_spec (s e : Int) (h : s ≤ e) :
    generate_weekly_buckets s e ≠ []
    ∧ (generate_weekly_buckets s e).head? = some (get_week_ending_date s)
    ∧ List.Chain' (fun a b => b = a + 7) (generate_weekly_buckets s e)
    ∧ (∀ d : Int, (∃ k : Nat, d = get_week_ending_date s + 7 * k) → d ≤ e →
        d ∈ generate_weekly_buckets s e)
    ∧ (e < get_week_ending_date s → generate_weekly_buckets s e = [get_week_ending_date s]) := by
  rcases le_or_lt (get_week_ending_date s) e with hW | hW
  · rw [generate_weekly_buckets_eq_loop s e hW]
    refine ⟨?_, ?_, chain_weekly_bucket_loop e _, ?_, ?_⟩
    · rw [weekly_bucket_loop_cons e _ hW]
      simp
    · rw [weekly_bucket_loop_cons e _ hW]
      rfl
    · intro d hd hde
      obtain ⟨k, rfl⟩ := hd
      exact (mem_weekly_bucket_loop e _ _).mpr ⟨k, rfl, hde⟩
    · intro hcon
      omega
  · rw [generate_weekly_buckets_eq_single s e hW]
    refine ⟨by simp, rfl, List.chain'_singleton _, ?_, fun _ => rfl⟩
    intro d hd hde
    obtain ⟨k, rfl⟩ := hd
    have : (0:Int) ≤ 7 * (k:Int) := by positivity
    omega

/-- Witness for C3 at a concrete short range (Tuesday day 1 to day 2):
the range is shorter than one week and yields the single bucket
`get_week_ending_date 1 = 6`. -/
theorem generate_weekly_buckets_spec_witness :
    generate_weekly_buckets 1 2 = [get_week_ending_date 1] :=
  (generate_weekly_buckets_spec 1 2 (by decide)).2.2.2.2 (by decide)

/-!
## Entity model and rollup engine

From `src/backend/core/models/{contract,deliverable,task}.py` and (for the
assignment-based revision) `src/core/models/deliverable.py`. Only the
columns consulted by the rollup methods are embedded; inert columns
(names, status strings, timestamps) are omitted.
-/

/-- Model `Task`: only `budget_hours` is consulted by the rollups. -/
structure Task where
  budget_hours : Rat
deriving DecidableEq

/-- Model `DeliverableTimeEntry` row (fields from
`src/core/models/deliverable_time_entry.py`, which also backs the
serializer field list in `src/backend/core/api/v1/serializers.py`). -/
structure TimeEntry where
  deliverable : Int
  staff : Option Int
  entry_date : Int
  hours : Rat
  note : String
  external_source : String
  external_id : String
deriving DecidableEq

structure Contract where
  start_date : Int
  end_date : Int
  budget_hours : Rat
deriving DecidableEq

/-- Backend `Deliverable` with its child rows inlined (the ORM reaches
them through `self.tasks` / `self.time_entries`). -/
structure Deliverable where
  contract : Contract
  budget_hours : Rat
  start_date : Option Int
  due_date : Option Int
  tasks : List Task
  time_entries : List TimeEntry
deriving DecidableEq

/-- Python `ceil(days / 7)` (exact ceiling of `days / 7`); with `/` the
Euclidean division on `Int` and a positive divisor, `(days + 6) / 7` is
exactly `⌈days / 7⌉` — see `ceil_div7_is_ceil`. -/
def ceil_div7 (days : Int) : Int := (days + 6) / 7

theorem ceil_div7_is_ceil (days : Int) :
    days ≤ 7 * ceil_div7 days ∧ 7 * (ceil_div7 days - 1) < days := by
  unfold ceil_div7
  omega

namespace Deliverable

/-- Source: `self.tasks.aggregate(total=Sum("budget_hours"))["total"] or Decimal("0")` -/
def get_assigned_budget_hours (d : Deliverable) : Rat :=
  (d.tasks.map Task.budget_hours).sum

/-- Source: `self.time_entries.aggregate(total=Sum("hours"))["total"] or Decimal("0")` -/
def get_spent_hours (d : Deliverable) : Rat :=
  (d.time_entries.map TimeEntry.hours).sum

/-- Source: `self.start_date or self.contract.start_date` (a date is always truthy) -/
def effective_start (d : Deliverable) : Int :=
  d.start_date.getD d.contract.start_date

/-- Source: `self.due_date or self.contract.end_date` -/
def effective_end (d : Deliverable) : Int :=
  d.due_date.getD d.contract.end_date

def get_planned_weeks (d : Deliverable) : Int :=
  max 1 (ceil_div7 (d.effective_end - d.effective_start + 1))

def get_elapsed_weeks (d : Deliverable) (today : Int) : Int :=
  if today < d.effective_start then 1
  else max 1 (ceil_div7 (min today d.effective_end - d.effective_start + 1))

def get_assigned_budget_hours_per_week (d : Deliverable) : Rat :=
  d.get_assigned_budget_hours / (d.get_planned_weeks : Rat)

def get_spent_hours_per_week (d : Deliverable) (today : Int) : Rat :=
  d.get_spent_hours / (d.get_elapsed_weeks today : Rat)

def get_remaining_budget_hours (d : Deliverable) : Rat :=
  d.budget_hours - d.get_assigned_budget_hours

def get_unspent_budget_hours (d : Deliverable) : Rat :=
  d.budget_hours - d.get_spent_hours

def get_variance_hours (d : Deliverable) : Rat :=
  d.get_spent_hours - d.get_assigned_budget_hours

def is_over_budget (d : Deliverable) : Bool :=
  d.get_spent_hours > d.budget_hours

def is_overassigned (d : Deliverable) : Bool :=
  d.get_assigned_budget_hours > d.budget_hours

/-- Source: `return self.budget_hours == 0 and self.tasks.exists()` — note: the
deliverable's own `budget_hours` column, not the task-budget rollup. -/
def is_missing_budget (d : Deliverable) : Bool :=
  d.budget_hours == 0 && !d.tasks.isEmpty

end Deliverable

namespace Contract

/-- contract rollups iterate `self.deliverables.all()`, composing the
per-deliverable rollups; the child list is passed explicitly. -/
def get_assigned_budget_hours (ds : List Deliverable) : Rat :=
  (ds.map Deliverable.get_assigned_budget_hours).sum

def get_spent_hours (ds : List Deliverable) : Rat :=
  (ds.map Deliverable.get_spent_hours).sum

def get_planned_weeks (c : Contract) : Int :=
  max 1 (ceil_div7 (c.end_date - c.start_date + 1))

def get_elapsed_weeks (c : Contract) (today : Int) : Int :=
  if today < c.start_date then 1
  else max 1 (ceil_div7 (min today c.end_date - c.start_date + 1))

def get_assigned_budget_hours_per_week (c : Contract) (ds : List Deliverable) : Rat :=
  get_assigned_budget_hours ds / (c.get_planned_weeks : Rat)

def get_spent_hours_per_week (c : Contract) (ds : List Deliverable) (today : Int) : Rat :=
  get_spent_hours ds / (c.get_elapsed_weeks today : Rat)

def is_over_expected (ds : List Deliverable) : Bool :=
  get_spent_hours ds > get_assigned_budget_hours ds

end Contract

/-!
Assignment-based revision of the deliverable model
(`src/core/models/deliverable.py`): rollups sum `expected_hours` over
`DeliverableAssignment` rows and that model variant has no own
`budget_hours` column.
-/

structure DeliverableAssignment where
  staff : Int
  expected_hours : Rat
  is_lead : Bool
deriving DecidableEq

namespace Legacy

structure Deliverable where
  assignments : List DeliverableAssignment
  time_entries : List TimeEntry
deriving DecidableEq

/-- Source: `self.assignments.aggregate(total=Sum("expected_hours"))["total"] or Decimal("0")` -/
def Deliverable.get_expected_hours_total (d : Deliverable) : Rat :=
  (d.assignments.map DeliverableAssignment.expected_hours).sum

/-- Source: `return self.get_expected_hours_total() == 0 and self.assignments.exists()` -/
def Deliverable.is_missing_estimate (d : Deliverable) : Bool :=
  d.get_expected_hours_total == 0 && !d.assignments.isEmpty

end Legacy

/-- C1: for every deliverable, `spent - assigned = variance` exactly over
the decimal (rational) arithmetic, with the two totals summing to `0`
over empty child sets. -/
theorem deliverable_variance_exact (d : Deliverable) :
    d.get_spent_hours - d.get_assigned_budget_hours = d.get_variance_hours
    ∧ Deliverable.get_spent_hours { d with time_entries := [] } = 0
    ∧ Deliverable.get_assigned_budget_hours { d with tasks := [] } = 0 :=
  ⟨rfl, rfl, rfl⟩

/-- C2: under valid dates (effective end ≥ effective start) the week
counts are clamped to at least 1 for every `today` — start = end yields
exactly 1, a `today` before the start yields elapsed 1 — so the
per-week divisions never have a zero denominator. -/
theorem weeks_at_least_one (d : Deliverable) (c : Contract) (today : Int)
    (hd : d.effective_start ≤ d.effective_end) (hc : c.start_date ≤ c.end_date) :
    1 ≤ d.get_planned_weeks
    ∧ 1 ≤ d.get_elapsed_weeks today
    ∧ 1 ≤ c.get_planned_weeks
    ∧ 1 ≤ c.get_elapsed_weeks today
    ∧ ((d.get_planned_weeks : Rat) ≠ 0 ∧ (d.get_elapsed_weeks today : Rat) ≠ 0)
    ∧ ((c.get_planned_weeks : Rat) ≠ 0 ∧ (c.get_elapsed_weeks today : Rat) ≠ 0)
    ∧ (d.effective_start = d.effective_end →
        d.get_planned_weeks = 1 ∧ d.get_elapsed_weeks today = 1)
    ∧ (today < d.effective_start → d.get_elapsed_weeks today = 1) := by
  have hp : 1 ≤ d.get_planned_weeks := le_max_left 1 _
  have he : 1 ≤ d.get_elapsed_weeks today := by
    unfold Deliverable.get_elapsed_weeks
    split
    · exact le_refl 1
    · exact le_max_left 1 _
  have hcp : 1 ≤ c.get_planned_weeks := le_max_left 1 _
  have hce : 1 ≤ c.get_elapsed_weeks today := by
    unfold Contract.get_elapsed_weeks
    split
    · exact le_refl 1
    · exact le_max_left 1 _
  refine ⟨hp, he, hcp, hce, ⟨?_, ?_⟩, ⟨?_, ?_⟩, ?_, ?_⟩
  · exact_mod_cast (by omega : d.get_planned_weeks ≠ 0)
  · exact_mod_cast (by omega : d.get_elapsed_weeks today ≠ 0)
  · exact_mod_cast (by omega : c.get_planned_weeks ≠ 0)
  · exact_mod_cast (by omega : c.get_elapsed_weeks today ≠ 0)
  · intro heq
    constructor
    · unfold Deliverable.get_planned_weeks ceil_div7
      omega
    · unfold Deliverable.get_elapsed_weeks ceil_div7
      split
      · rfl
      · omega
  · intro hlt
    unfold Deliverable.get_elapsed_weeks
    simp [hlt]

/-- fixture contract for witnesses: 2024-01-01-like Monday day 0 through day 8 -/
def cW : Contract := ⟨0, 8, 100⟩

/-- fixture deliverable inheriting the contract dates -/
def dW : Deliverable := ⟨cW, 10, none, none, [], []⟩

/-- Witness for C2 at the fixture deliverable/contract and `today = 5`. -/
theorem weeks_at_least_one_witness :
    1 ≤ dW.get_planned_weeks :=
  (weeks_at_least_one dW cW 5 (by decide) (by decide)).1

/-- deliverable with own `budget_hours = 0` but a sized task: the
task-budget rollup is `5`, yet `is_missing_budget` is `true`. -/
def dMB : Deliverable := ⟨cW, 0, none, none, [⟨5⟩], []⟩

/-- C8 counterexample: `is_missing_budget` tests the deliverable's own
`budget_hours`, not the task-budget rollup, so at `dMB` (own budget `0`,
one task of `5` hours) the claimed equivalence with
"assigned total = 0 and has tasks" fails. -/
theorem is_missing_budget_claim_counterexample :
    ¬ (dMB.is_missing_budget = true ↔
        (dMB.get_assigned_budget_hours = 0 ∧ dMB.tasks ≠ [])) := by
  intro h
  have hA : dMB.is_missing_budget = true := by
    simp [dMB, Deliverable.is_missing_budget]
  have h5 : dMB.get_assigned_budget_hours = 5 := by
    simp [dMB, Deliverable.get_assigned_budget_hours]
  have h0 := (h.mp hA).1
  rw [h5] at h0
  norm_num at h0

/-- C8 amended: `is_missing_budget` is true exactly when the
deliverable's own `budget_hours` is 0 and it has at least one task;
`is_missing_estimate` (assignment-based revision) is true exactly when
the summed `expected_hours` is 0 and there is at least one assignment;
with no tasks/assignments neither flag is raised. -/
theorem is_missing_flags_spec (d : Deliverable) (v : Legacy.Deliverable) :
    (d.is_missing_budget = true ↔ (d.budget_hours = 0 ∧ d.tasks ≠ []))
    ∧ (v.is_missing_estimate = true ↔
        (v.get_expected_hours_total = 0 ∧ v.assignments ≠ []))
    ∧ (d.tasks = [] → d.is_missing_budget = false)
    ∧ (v.assignments = [] → v.is_missing_estimate = false) := by
  refine ⟨?_, ?_, ?_, ?_⟩
  · simp [Deliverable.is_missing_budget, List.isEmpty_iff]
  · simp [Legacy.Deliverable.is_missing_estimate, List.isEmpty_iff]
  · intro h
    simp [Deliverable.is_missing_budget, h]
  · intro h
    simp [Legacy.Deliverable.is_missing_estimate, h]

/-- Witness for C8 (amended) at `dMB` and an empty legacy deliverable. -/
theorem is_missing_flags_spec_witness :
    Legacy.Deliverable.is_missing_estimate ⟨[], []⟩ = false :=
  (is_missing_flags_spec dMB ⟨[], []⟩).2.2.2 rfl

/-!
## Access policy and time-entry creation

From `src/backend/core/api/v1/{views,permissions,serializers}.py`.
`get_staff_role` resolves the requester to one of the three roles; the
claims below only concern requests from users holding a staff profile.
-/

inductive Role where
  | staff
  | manager
  | admin
deriving DecidableEq

/-- Constant `Decimal("0.01")`, the `MinValueValidator` bound on `hours`
(written as a reduced-fraction literal so that it evaluates). -/
def hours_min : Rat := ⟨1, 100, by norm_num, Nat.coprime_one_left 100⟩

/-- Incoming `request.data` for a time-entry create; absent string
fields are `""` (the `request.data.get(..., "")` default), and `staff`
is carried only to show the serializer ignores it (it is not in the
serializer's field list). -/
structure TimeEntryPayload where
  deliverable : Int
  staff : Option Int
  entry_date : Int
  hours : Rat
  note : String
  external_source : String
  external_id : String
deriving DecidableEq

inductive ValidationFieldError where
  /-- error "external_id is required when external_source is provided." -/
  | missing_external_id
  /-- error "external_source is required when external_id is provided." -/
  | missing_external_source
  /-- a `hours` value below the `MinValueValidator(Decimal("0.01"))` bound -/
  | invalid_hours
deriving DecidableEq

/-- Source `DeliverableTimeEntrySerializer.validate`: Python truthiness of the
two strings is non-emptiness. -/
def timeentry_serializer_validate (p : TimeEntryPayload) : Option ValidationFieldError :=
  if p.external_source ≠ "" ∧ p.external_id = "" then some .missing_external_id
  else if p.external_id ≠ "" ∧ p.external_source = "" then some .missing_external_source
  else none

/-- full `serializer.is_valid()`: the model field validators
(`hours >= 0.01`) plus `validate` above. -/
def timeentry_run_validation (p : TimeEntryPayload) : Option ValidationFieldError :=
  if p.hours < hours_min then some .invalid_hours
  else timeentry_serializer_validate p

/-- Source `DeliverableTimeEntryViewSet.perform_create`: for a staff-role
requester the row is saved with `staff=self.request.user.staff`
regardless of the payload; the serializer's field list has no `staff`
field, so for manager/admin `serializer.save()` stores no staff
reference. -/
def perform_create_time_entry (role : Role) (requester : Int) (p : TimeEntryPayload) :
    TimeEntry :=
  { deliverable := p.deliverable
    staff := if role = .staff then some requester else none
    entry_date := p.entry_date
    hours := p.hours
    note := p.note
    external_source := p.external_source
    external_id := p.external_id }

inductive CreateResult where
  /-- HTTP 200: idempotent hit, existing row returned -/
  | ok_existing (t : TimeEntry)
  /-- HTTP 201: row inserted -/
  | created (t : TimeEntry)
  /-- HTTP 400: validation error, nothing written -/
  | rejected (e : ValidationFieldError)
deriving DecidableEq

/-- the idempotency lookup filter
`filter(external_source=..., external_id=...)` -/
def matches_external (p : TimeEntryPayload) (t : TimeEntry) : Bool :=
  t.external_source == p.external_source && t.external_id == p.external_id

/-- Source `super().create(...)`: validate, then `perform_create` appends the
new row. -/
def default_create_time_entry (role : Role) (requester : Int) (p : TimeEntryPayload)
    (db : List TimeEntry) : CreateResult × List TimeEntry :=
  match timeentry_run_validation p with
  | some err => (.rejected err, db)
  | none =>
    let t := perform_create_time_entry role requester p
    (.created t, db ++ [t])

/-- Source `DeliverableTimeEntryViewSet.create`: when both external fields are
non-empty, look up an existing row with the same pair (`.first()` on the
unordered filter = first match in storage order) and return it with 200;
otherwise fall through to the normal create. -/
def create_time_entry (role : Role) (requester : Int) (p : TimeEntryPayload)
    (db : List TimeEntry) : CreateResult × List TimeEntry :=
  if p.external_source ≠ "" ∧ p.external_id ≠ "" then
    match db.find? (matches_external p) with
    | some existing => (.ok_existing existing, db)
    | none => default_create_time_entry role requester p db
  else default_create_time_entry role requester p db

/-- a freshly inserted row matches its own external pair -/
theorem matches_external_perform_create (role : Role) (requester : Int)
    (p : TimeEntryPayload) :
    matches_external p (perform_create_time_entry role requester p) = true := by
  simp [matches_external, perform_create_time_entry]

/-- C4: with both external fields non-empty, a create that finds an
existing row with the same pair returns it (200, distinguishable from
201) and writes nothing; and a second identical create leaves the
stored set unchanged. -/
theorem create_time_entry_idempotent (role : Role) (requester : Int)
    (p : TimeEntryPayload) (db : List TimeEntry)
    (hs : p.external_source ≠ "") (hi : p.external_id ≠ "") :
    (∀ t : TimeEntry, db.find? (matches_external p) = some t →
      create_time_entry role requester p db = (.ok_existing t, db))
    ∧ (create_time_entry role requester p
        (create_time_entry role requester p db).2).2
      = (create_time_entry role requester p db).2 := by
  constructor
  · intro t ht
    simp [create_time_entry, hs, hi, ht]
  · cases hfind : db.find? (matches_external p) with
    | some t =>
      simp [create_time_entry, hs, hi, hfind]
    | none =>
      cases hval : timeentry_run_validation p with
      | some err =>
        simp [create_time_entry, default_create_time_entry, hs, hi, hfind, hval]
      | none =>
        have happ : (db ++ [perform_create_time_entry role requester p]).find?
            (matches_external p)
            = some (perform_create_time_entry role requester p) := by
          rw [List.find?_append, hfind]
          simp [List.find?, matches_external_perform_create role requester p]
        simp [create_time_entry, default_create_time_entry, hs, hi, hfind, hval, happ]

/-- fixture payload with an external pair, used by the C4 witness -/
def pX : TimeEntryPayload := ⟨1, none, 0, 1, "", "jira", "X1"⟩

/-- Witness for C4: a repeated create of `pX` against the empty store
leaves the store of the first create unchanged. -/
theorem create_time_entry_idempotent_witness :
    (create_time_entry .staff 1 pX ((create_time_entry .staff 1 pX []).2)).2
      = (create_time_entry .staff 1 pX []).2 :=
  (create_time_entry_idempotent .staff 1 pX [] (by decide) (by decide)).2

/-- C5: the serializer rejects exactly the payloads carrying one of the
two external fields without the other, naming the missing field; both
present or both absent pass; and any payload this validation rejects
writes nothing. -/
theorem timeentry_external_validation_spec (p : TimeEntryPayload) :
    (p.external_source ≠ "" → p.external_id = "" →
      timeentry_serializer_validate p = some .missing_external_id)
    ∧ (p.external_id ≠ "" → p.external_source = "" →
      timeentry_serializer_validate p = some .missing_external_source)
    ∧ (p.external_source ≠ "" → p.external_id ≠ "" →
      timeentry_serializer_validate p = none)
    ∧ (p.external_source = "" → p.external_id = "" →
      timeentry_serializer_validate p = none)
    ∧ (∀ (role : Role) (requester : Int) (db : List TimeEntry),
        timeentry_serializer_validate p ≠ none →
          (create_time_entry role requester p db).2 = db) := by
  refine ⟨?_, ?_, ?_, ?_, ?_⟩
  · intro h1 h2
    simp [timeentry_serializer_validate, h1, h2]
  · intro h1 h2
    simp [timeentry_serializer_validate, h1, h2]
  · intro h1 h2
    simp [timeentry_serializer_validate, h1, h2]
  · intro h1 h2
    simp [timeentry_serializer_validate, h1, h2]
  · intro role requester db hne
    have hboth : ¬(p.external_source ≠ "" ∧ p.external_id ≠ "") := by
      rintro ⟨h1, h2⟩
      exact hne (by simp [timeentry_serializer_validate, h1, h2])
    unfold create_time_entry
    rw [if_neg hboth]
    unfold default_create_time_entry
    cases hval : timeentry_run_validation p with
    | some e => simp
    | none =>
      exfalso
      apply hne
      unfold timeentry_run_validation at hval
      split at hval
      · exact absurd hval (by simp)
      · exact hval

/-- fixture payload with `external_source` but no `external_id` -/
def pY : TimeEntryPayload := ⟨1, none, 0, 1, "", "jira", ""⟩

/-- Witness for C5 at `pY`. -/
theorem timeentry_external_validation_spec_witness :
    timeentry_serializer_validate pY = some .missing_external_id :=
  (timeentry_external_validation_spec pY).1 (by decide) rfl

/-- a successful (201) create stores exactly the `perform_create` row -/
theorem create_time_entry_created_eq (role : Role) (requester : Int)
    (p : TimeEntryPayload) (db : List TimeEntry) (t : TimeEntry)
    (db' : List TimeEntry)
    (h : create_time_entry role requester p db = (.created t, db')) :
    t = perform_create_time_entry role requester p := by
  unfold create_time_entry default_create_time_entry at h
  split at h
  · split at h
    · simp at h
    · split at h
      · simp at h
      · simp at h
        exact h.1.symm
  · split at h
    · simp at h
    · simp at h
      exact h.1.symm

/-- C6: for a staff-role requester every successful create stores the
requester's own id as the entry's staff reference, whatever the
payload's `staff` field held — two creates differing only in that field
agree on it. -/
theorem create_forces_staff_self (requester : Int) (p : TimeEntryPayload)
    (s1 s2 : Option Int) (db : List TimeEntry) (t1 t2 : TimeEntry)
    (db1 db2 : List TimeEntry)
    (h1 : create_time_entry .staff requester { p with staff := s1 } db
      = (.created t1, db1))
    (h2 : create_time_entry .staff requester { p with staff := s2 } db
      = (.created t2, db2)) :
    t1.staff = some requester ∧ t2.staff = some requester ∧ t1.staff = t2.staff := by
  have e1 := create_time_entry_created_eq _ _ _ _ _ _ h1
  have e2 := create_time_entry_created_eq _ _ _ _ _ _ h2
  subst e1
  subst e2
  refine ⟨?_, ?_, ?_⟩ <;> simp [perform_create_time_entry]

/-- fixture payload without external pair, used by the C6 witness -/
def pW1 : TimeEntryPayload := ⟨1, none, 0, 1, "", "", ""⟩

/-- the row `perform_create` stores for `pW1` from requester 1 -/
def tW1 : TimeEntry := ⟨1, some 1, 0, 1, "", "", ""⟩

/-- Witness for C6: requester 1, payload staff `none` vs `some 5`. -/
theorem create_forces_staff_self_witness :
    tW1.staff = some 1 ∧ tW1.staff = some 1 ∧ tW1.staff = tW1.staff :=
  create_forces_staff_self 1 pW1 none (some 5) [] tW1 tW1 [tW1] [tW1]
    (by decide) (by decide)

/-- a JSON field of `request.data`: absent, explicit `null`, a number,
or a string. -/
inductive PayloadValue where
  | absent
  | nullv
  | intv (n : Int)
  | strv (s : String)
deriving DecidableEq

/-- Source `CanCreateTaskAsStaff.has_permission`: allow when the `assignee`
field is absent, `None`, `""` or `0`; otherwise compare
`int(assignee_id)` with the requester's staff id, returning `False` on
a conversion error. (`String.trim.toInt?` mirrors Python `int(...)` on
a string up to exotic forms such as underscore digit separators.) -/
def can_create_task_as_staff (requester : Int) (assignee : PayloadValue) : Bool :=
  match assignee with
  | .absent => true
  | .nullv => true
  | .intv n => n == 0 || n == requester
  | .strv s =>
      s == "" ||
        match s.trim.toInt? with
        | some n => n == requester
        | none => false

/-- Source `TaskViewSet.get_permissions` for the create action: staff go
through `CanCreateTaskAsStaff`; managers/admins through
`ReadOnlyForStaffOtherwiseManagerAdmin`, which allows every write. -/
def task_create_authorized (role : Role) (requester : Int) (assignee : PayloadValue) :
    Bool :=
  match role with
  | .staff => can_create_task_as_staff requester assignee
  | .manager => true
  | .admin => true

/-- Source `TaskViewSet.perform_update`: `none` = `assignee` not in
`validated_data`; `some none` = set to null; `some (some a)` = set to
the resolved existing staff `a`. Staff are denied exactly when
reassigning to someone else; other roles are never denied here. -/
def task_perform_update_rejected (role : Role) (requester : Int)
    (assignee_update : Option (Option Int)) : Bool :=
  match role, assignee_update with
  | .staff, some (some a) => a != requester
  | _, _ => false

/-- C7 counterexample: the payload `assignee = 0` is authorized by
`CanCreateTaskAsStaff` (it is treated as "unassigned") although it is
neither the requester's own staff id (1) nor absent nor null, so the
claimed "if and only if" fails at this input. -/
theorem task_create_policy_counterexample :
    ¬ (task_create_authorized .staff 1 (.intv 0) = true →
        (PayloadValue.intv 0 = .intv 1 ∨ PayloadValue.intv 0 = .absent
          ∨ PayloadValue.intv 0 = .nullv)) := by
  decide

/-- C7 amended: a staff-role Task create is authorized iff the payload
assignee is absent, null, the empty string, the integer `0` (all
treated as "unassigned"), or resolves — as an integer or numeric
string — to the requester's own staff id; a staff-role update setting
the assignee to a different existing staff id is rejected; manager and
admin are unrestricted in both places. -/
theorem task_create_update_policy (requester target : Int) (a : PayloadValue) :
    (task_create_authorized .staff requester a = true ↔
      (a = .absent ∨ a = .nullv ∨ a = .intv 0 ∨ a = .strv ""
        ∨ a = .intv requester
        ∨ ∃ s : String, a = .strv s ∧ s.trim.toInt? = some requester))
    ∧ (target ≠ requester →
        task_perform_update_rejected .staff requester (some (some target)) = true)
    ∧ task_perform_update_rejected .staff requester (some none) = false
    ∧ (∀ u : Option (Option Int),
        task_perform_update_rejected .manager requester u = false
        ∧ task_perform_update_rejected .admin requester u = false)
    ∧ (∀ b : PayloadValue,
        task_create_authorized .manager requester b = true
        ∧ task_create_authorized .admin requester b = true) := by
  refine ⟨?_, ?_, ?_, ?_, ?_⟩
  · cases a with
    | absent => simp [task_create_authorized, can_create_task_as_staff]
    | nullv => simp [task_create_authorized, can_create_task_as_staff]
    | intv n =>
      simp [task_create_authorized, can_create_task_as_staff]
    | strv s =>
      cases hts : s.trim.toInt? with
      | some m =>
        simp [task_create_authorized, can_create_task_as_staff, hts]
      | none =>
        simp [task_create_authorized, can_create_task_as_staff, hts]
  · intro h
    simp [task_perform_update_rejected, h]
  · simp [task_perform_update_rejected]
  · intro u
    constructor <;> rfl
  · intro b
    constructor <;> rfl

/-- Witness for C7 (amended): requester 1 may not reassign to staff 2. -/
theorem task_create_update_policy_witness :
    task_perform_update_rejected .staff 1 (some (some 2)) = true :=
  (task_create_update_policy 1 2 .absent).2.1 (by decide)

/-!
## Burn report bucketing (`ContractReportViewSet.burn`)

Per bucket, `actual_hours` sums the contract's time entries with
`bucket_start = bucket_end - 6 ≤ entry_date ≤ bucket_end`;
`cumulative_actual` is the running sum, so its final value is the sum
of the per-bucket actuals over all buckets.
-/

def bucket_actual_hours (entries : List TimeEntry) (bucket_end : Int) : Rat :=
  ((entries.filter
      (fun t => bucket_end - 6 ≤ t.entry_date && t.entry_date ≤ bucket_end)).map
    TimeEntry.hours).sum

/-- the last `cumulative_actual` value the burn loop emits -/
def burn_final_cumulative_actual (c : Contract) (entries : List TimeEntry) : Rat :=
  ((generate_weekly_buckets c.start_date c.end_date).map
    (bucket_actual_hours entries)).sum

/-- burn-report fixture: contract days 0 (a Monday) to 8, one entry of
5 hours on day 8 — inside the contract range but after the only bucket
end (day 6, the first Sunday). -/
def c10 : Contract := ⟨0, 8, 100⟩

def tE10 : TimeEntry := ⟨1, none, 8, 5, "", "", ""⟩

def d10 : Deliverable := ⟨c10, 10, none, none, [], [tE10]⟩

theorem generate_weekly_buckets_c10 : generate_weekly_buckets 0 8 = [6] := by
  have hW : get_week_ending_date 0 = 6 := by decide
  have h1 : weekly_bucket_loop 8 13 = [] := weekly_bucket_loop_nil 8 13 (by decide)
  have h2 : weekly_bucket_loop 8 6 = [6] := by
    rw [weekly_bucket_loop_cons 8 6 (by decide)]
    norm_num [h1]
  rw [generate_weekly_buckets_eq_loop 0 8 (by rw [hW]; decide), hW, h2]

/-- C10: a time entry dated strictly after the last bucket end falls in
no bucket's `[bucket_end - 6, bucket_end]` window, so it is counted in
no bucket's `actual_hours`; at the fixture contract (end day 8, buckets
stopping at Sunday day 6, entry on day 8) the final `cumulative_actual`
is strictly below the contract's `spent_hours` although every entry
lies within `[start_date, end_date]`. -/
theorem burn_report_tail_entry_uncounted (s e lastB entryDate : Int) (hse : s ≤ e)
    (hlast : (generate_weekly_buckets s e).getLast? = some lastB)
    (hafter : lastB < entryDate) :
    (∀ b ∈ generate_weekly_buckets s e, ¬(b - 6 ≤ entryDate ∧ entryDate ≤ b))
    ∧ burn_final_cumulative_actual c10 [tE10] < Contract.get_spent_hours [d10]
    ∧ (∀ t ∈ [tE10], c10.start_date ≤ t.entry_date ∧ t.entry_date ≤ c10.end_date) := by
  refine ⟨?_, ?_, ?_⟩
  · rintro b hb ⟨h1, h2⟩
    have hble := generate_weekly_buckets_le_getLast s e b lastB hb hlast
    omega
  · norm_num [burn_final_cumulative_actual, c10, generate_weekly_buckets_c10,
      bucket_actual_hours, tE10, Contract.get_spent_hours, d10,
      Deliverable.get_spent_hours]
  · intro t ht
    rw [List.mem_singleton] at ht
    subst ht
    exact ⟨by decide, by decide⟩

/-- Witness for C10 at the fixture: the only bucket ends on day 6 and
the entry is dated day 8. -/
theorem burn_report_tail_entry_uncounted_witness :
    burn_final_cumulative_actual c10 [tE10] < Contract.get_spent_hours [d10] :=
  (burn_report_tail_entry_uncounted 0 8 6 8 (by decide)
    (by simp [generate_weekly_buckets_c10]) (by decide)).2.1

end TaskRoot
